/-
  Verification of the capacity-dashboard workload deriver, filter engine and
  exporter (src/src/components/ConsultantCapacityDashboard.jsx).

  Shallow embedding notes:
  * Dates: the JavaScript code stores raw date cells and parses them at each
    use site with `new Date(...)`; an unparseable cell yields `NaN` and the
    validity test `!isNaN(d)` fails.  We model a raw date cell by the result
    of that parse: `Option SDate`, where `none` stands for a cell that does
    not parse to a valid date and `some d` for one that parses to the
    calendar date `d`.  `SDate` records year / month (0-based, as in
    JavaScript) / day; JavaScript compares `Date` values by their timestamp,
    which for normalized dates is order-isomorphic to the lexicographic key
    `SDate.key`.
  * Numbers: all role weights are exact multiples of 1/10, so the floating
    point arithmetic of the source is modelled exactly in `ℚ`.
    `parseFloat(x.toFixed(1))` is modelled by `round1` (round to one decimal
    place).
  * `Array.prototype.sort` is stable (ECMAScript guarantees this); it is
    modelled by an insertion sort, which is stable for the comparator used.
  * A JavaScript object used as a dictionary with (non-integer-like) string
    keys enumerates its keys in insertion order; `projectsByConsultant` is
    therefore an association list that preserves first-seen key order.
-/
import Mathlib

/- The Batteries rational arithmetic is marked irreducible, which blocks
evaluation of concrete witnesses; restore the default reducibility locally. -/
attribute [local semireducible] Rat.add Rat.mul Rat.inv Rat.sub

set_option maxRecDepth 10000

/-- A calendar date as produced by a successful JavaScript `Date` parse:
year, 0-based month, day of month. -/
structure SDate where
  year : Int
  month : Int
  day : Int
deriving DecidableEq, Inhabited

/-- Chronological comparison key.  For normalized dates (`0 ≤ month < 12`,
`1 ≤ day ≤ 31`) ordering by this key agrees with ordering JavaScript `Date`
values by timestamp. -/
def SDate.key (d : SDate) : Int :=
  (d.year * 12 + d.month) * 32 + d.day

/-- One project association of a consultant, as pushed by `processData`:
`{ projectName, role, startDate, endDate, businessLine }`.  Text cells that
may be absent in the CSV are `Option String`; date cells are modelled by
their parse result (see header comment). -/
structure Assignment where
  projectName : Option String
  role : String
  startDate : Option SDate
  endDate : Option SDate
  businessLine : Option String
deriving DecidableEq

/-- Entry of a month's `details` list: `{ name, role, businessLine }`. -/
structure ProjDetail where
  name : Option String
  role : String
  businessLine : Option String
deriving DecidableEq

/-- One timeline entry produced by `generateMonthlyTimeline`.  The source
stores a locale-formatted month label; we keep the underlying month date. -/
structure MonthlySnapshot where
  month : SDate
  projects : Nat
  weightedLoad : ℚ
  capacity : ℚ
  details : List ProjDetail
deriving DecidableEq, Inhabited

/-- A consultant record produced by `processData`. -/
structure Consultant where
  name : String
  projects : List Assignment
  timeline : List MonthlySnapshot
  currentLoad : Nat
deriving DecidableEq, Inhabited

/-- `ROLE_WEIGHTS[role] || 0`. -/
def roleWeight (role : String) : ℚ :=
  if role = "Lead" then 1
  else if role = "Co-Lead" then 7/10
  else if role = "Strategic Advisor" then 3/10
  else if role = "Supporting" then 2/10
  else 0

/-- `MAX_RECOMMENDED_LOAD = 8`. -/
def MAX_RECOMMENDED_LOAD : ℚ := 8

/-- `parseFloat(x.toFixed(1))`: round to one decimal place. -/
def round1 (q : ℚ) : ℚ :=
  ((round (q * 10) : ℤ) : ℚ) / 10

/-- `new Date(year, m, 1)`: JavaScript normalizes an out-of-range month
index by floor division (Euclidean division, since the divisor is
positive). -/
def mkMonth (year m : Int) : SDate :=
  ⟨year + m / 12, m % 12, 1⟩

/-- The 12 first-of-month dates starting at the reference month
(`for (let i = 0; i < 12; i++) months.push(new Date(y, m + i, 1))`). -/
def monthsList (today : SDate) : List SDate :=
  (List.range 12).map (fun (i : Nat) => mkMonth today.year (today.month + (i : Int)))

/-- The activity test of `generateMonthlyTimeline`:
`!isNaN(startDate) && !isNaN(endDate) && month >= startDate && month <= endDate`. -/
def isActive (month : SDate) (p : Assignment) : Bool :=
  match p.startDate, p.endDate with
  | some s, some e => decide (s.key ≤ month.key) && decide (month.key ≤ e.key)
  | _, _ => false

/-- `activeProjects.reduce((total, project) => total + (ROLE_WEIGHTS[project.role] || 0), 0)`. -/
def rawLoad (projects : List Assignment) : ℚ :=
  projects.foldl (fun acc p => acc + roleWeight p.role) 0

/-- The record built for one month by `generateMonthlyTimeline`.  Note that
the stored `weightedLoad` is the rounded sum while `capacity` is computed
from the unrounded sum, exactly as in the source. -/
def snapshotFor (projects : List Assignment) (month : SDate) : MonthlySnapshot :=
  let active := projects.filter (fun p => isActive month p)
  { month := month
    projects := active.length
    weightedLoad := round1 (rawLoad active)
    capacity := max 0 (MAX_RECOMMENDED_LOAD - rawLoad active)
    details := active.map (fun p => ⟨p.projectName, p.role, p.businessLine⟩) }

/-- `generateMonthlyTimeline(projects)`, with the reference date made an
explicit parameter in place of `new Date()`. -/
def generateMonthlyTimeline (today : SDate) (projects : List Assignment) :
    List MonthlySnapshot :=
  (monthsList today).map (snapshotFor projects)

/-- `str.split(';')` on the underlying character list. -/
def splitSemis : List Char → List (List Char)
  | [] => [[]]
  | c :: rest =>
    match splitSemis rest with
    | [] => [[c]]
    | g :: gs => if c = ';' then [] :: g :: gs else (c :: g) :: gs

/-- `s.trim()`: drop leading and trailing whitespace. -/
def trimChars (l : List Char) : List Char :=
  ((l.dropWhile Char.isWhitespace).reverse.dropWhile Char.isWhitespace).reverse

/-- `const splitConsultants = (str) => str ? str.split(';').map(s => s.trim()).filter(Boolean) : []`.
A missing / null field and the empty string are falsy and yield `[]`. -/
def splitConsultants : Option String → List String
  | none => []
  | some s =>
    if s = "" then []
    else ((splitSemis s.data).map (fun g => String.mk (trimChars g))).filter
      (fun n => n ≠ "")

/-- One raw CSV row with the recognized columns (`Deal Name`, the four role
name fields, `Contract Start Date`, `Contract End Date`,
`Primary Business Line`). -/
structure Row where
  dealName : Option String
  projectLead : Option String
  projectCoLead : Option String
  projectStrategicAdvisors : Option String
  projectSupportingConsultants : Option String
  contractStartDate : Option SDate
  contractEndDate : Option SDate
  primaryBusinessLine : Option String
deriving DecidableEq

/-- The assignment pushed for one (row, role) pair. -/
def mkAssignment (r : Row) (role : String) : Assignment :=
  ⟨r.dealName, role, r.contractStartDate, r.contractEndDate, r.primaryBusinessLine⟩

/-- `projectsByConsultant[name].push(a)` on an insertion-ordered association
list, creating the key at the end if it is new. -/
def pushAssign (acc : List (String × List Assignment)) (name : String)
    (a : Assignment) : List (String × List Assignment) :=
  if acc.any (fun pr => pr.1 = name) then
    acc.map (fun pr => if pr.1 = name then (pr.1, pr.2 ++ [a]) else pr)
  else acc ++ [(name, [a])]

/-- The four `processRole` calls, in source order. -/
def roleFields (r : Row) : List (Option String × String) :=
  [(r.projectLead, "Lead"), (r.projectCoLead, "Co-Lead"),
   (r.projectStrategicAdvisors, "Strategic Advisor"),
   (r.projectSupportingConsultants, "Supporting")]

/-- Processing of one parsed row inside `parsedData.data.forEach`. -/
def processRow (acc : List (String × List Assignment)) (r : Row) :
    List (String × List Assignment) :=
  (roleFields r).foldl
    (fun acc2 field =>
      (splitConsultants field.1).foldl
        (fun acc3 n => pushAssign acc3 n (mkAssignment r field.2)) acc2)
    acc

/-- The `projectsByConsultant` dictionary after the `forEach` over all rows. -/
def projectsByConsultant (rows : List Row) : List (String × List Assignment) :=
  rows.foldl processRow []

/-- `_.uniqBy(projects, 'projectName')`: keep the first occurrence of each
project name. -/
def uniqByName (l : List Assignment) : List Assignment :=
  l.foldl
    (fun acc p =>
      if acc.any (fun q => q.projectName = p.projectName) then acc else acc ++ [p])
    []

/-- The `currentLoad` activity test of `processData`:
`!isNaN(startDate) && !isNaN(endDate) && now >= startDate && now <= endDate`. -/
def isActiveToday (today : SDate) (p : Assignment) : Bool :=
  match p.startDate, p.endDate with
  | some s, some e => decide (s.key ≤ today.key) && decide (today.key ≤ e.key)
  | _, _ => false

/-- The consultant record built for one `[name, projects]` entry.  Both the
timeline and `currentLoad` are computed from the full grouped list; only the
`projects` field is de-duplicated. -/
def mkConsultant (today : SDate) (name : String) (asgs : List Assignment) :
    Consultant :=
  { name := name
    projects := uniqByName asgs
    timeline := generateMonthlyTimeline today asgs
    currentLoad := (asgs.filter (fun p => isActiveToday today p)).length }

/-- The consultant list before sorting, in `Object.entries` (insertion)
order. -/
def consultantsUnsorted (today : SDate) (rows : List Row) : List Consultant :=
  (projectsByConsultant rows).map (fun pr => mkConsultant today pr.1 pr.2)

/-- The comparator `(a, b) => b.currentLoad - a.currentLoad`: `a` may come
before `b` iff `b.currentLoad ≤ a.currentLoad`. -/
def byDescLoad (a b : Consultant) : Prop :=
  b.currentLoad ≤ a.currentLoad

instance : DecidableRel byDescLoad := fun a b => Nat.decLe b.currentLoad a.currentLoad

instance : IsTotal Consultant byDescLoad :=
  ⟨fun a b => le_total b.currentLoad a.currentLoad⟩

instance : IsTrans Consultant byDescLoad :=
  ⟨fun _ _ _ h1 h2 => le_trans h2 h1⟩

/-- `processData`: group rows by consultant name, build each consultant
record, and stably sort by descending current load. -/
def processData (today : SDate) (rows : List Row) : List Consultant :=
  List.insertionSort byDescLoad (consultantsUnsorted today rows)

/-- The four filter criteria, as kept in component state.  `"all"` (resp.
the empty search string) disables a criterion. -/
structure FilterState where
  businessLine : String
  timeframe : String
  capacityStatus : String
  consultantSearch : String
deriving DecidableEq

/-- `parseInt(filters.timeframe)` on the fixed option set
`"3months" | "6months" | "12months"` (only these reach the parse, since
`"all"` is filtered out before). -/
def timeframeMonths (t : String) : Int :=
  if t = "3months" then 3
  else if t = "6months" then 6
  else if t = "12months" then 12
  else 0

/-- `cutoffDate.setMonth(cutoffDate.getMonth() + months)`: month arithmetic
with floor-division normalization, keeping the day of month. -/
def addMonths (d : SDate) (n : Int) : SDate :=
  ⟨d.year + (d.month + n) / 12, (d.month + n) % 12, d.day⟩

/-- `consultant.timeline[0].weightedLoad`.  Consultants produced by the
deriver always have a 12-entry timeline, so the empty case is never hit
there. -/
def firstWeightedLoad (c : Consultant) : ℚ :=
  match c.timeline with
  | [] => 0
  | m :: _ => m.weightedLoad

/-- The `switch (filters.capacityStatus)` of the capacity-status filter,
including its `default: return true` branch. -/
def capacityPred (status : String) (load : ℚ) : Bool :=
  if status = "available" then decide (load < MAX_RECOMMENDED_LOAD * (8/10))
  else if status = "at-capacity" then
    decide (MAX_RECOMMENDED_LOAD * (8/10) ≤ load) && decide (load ≤ MAX_RECOMMENDED_LOAD)
  else if status = "over-capacity" then decide (MAX_RECOMMENDED_LOAD < load)
  else true

/-- `s.includes(sub)`: substring test on the character list. -/
def strIncludes (s sub : String) : Bool :=
  s.data.tails.any (fun t => sub.data.isPrefixOf t)

/-- The `applyFilters` closure of the effect hook: business line, timeframe,
capacity status and name search, applied in source order to a fresh view of
the base dataset. -/
def applyFilters (today : SDate) (f : FilterState) (data : List Consultant) :
    List Consultant :=
  let d1 :=
    if f.businessLine = "all" then data
    else data.map (fun c =>
      { c with projects := c.projects.filter (fun p => p.businessLine = some f.businessLine) })
  let d2 :=
    if f.timeframe = "all" then d1
    else
      let cutoff := addMonths today (timeframeMonths f.timeframe)
      d1.map (fun c =>
        { c with projects := c.projects.filter (fun p =>
            match p.endDate with
            | none => false
            | some e => decide (e.key ≤ cutoff.key)) })
  let d3 :=
    if f.capacityStatus = "all" then d2
    else d2.filter (fun c => capacityPred f.capacityStatus (firstWeightedLoad c))
  if f.consultantSearch = "" then d3
  else d3.filter (fun c => strIncludes c.name.toLower f.consultantSearch.toLower)

/-- One row of the CSV export. -/
structure CsvRow where
  consultant : String
  project : Option String
  role : String
  businessLine : Option String
  startDate : Option SDate
  endDate : Option SDate
  currentLoad : ℚ
  availableCapacity : ℚ
deriving DecidableEq

/-- The `case 'csv'` branch of `exportData`: one row per (consultant,
de-duplicated assignment) pair, with the consultant's current-month weighted
load and the unclamped `MAX_RECOMMENDED_LOAD - load`. -/
def exportCsvRows (data : List Consultant) : List CsvRow :=
  data.flatMap (fun c =>
    c.projects.map (fun p =>
      { consultant := c.name
        project := p.projectName
        role := p.role
        businessLine := p.businessLine
        startDate := p.startDate
        endDate := p.endDate
        currentLoad := firstWeightedLoad c
        availableCapacity := MAX_RECOMMENDED_LOAD - firstWeightedLoad c }))

/-! ### Arithmetic facts: every load is an exact multiple of one tenth -/

/-- The role weights, in tenths of a load unit. -/
def roleWeightT (role : String) : Nat :=
  if role = "Lead" then 10
  else if role = "Co-Lead" then 7
  else if role = "Strategic Advisor" then 3
  else if role = "Supporting" then 2
  else 0

/-- The un-rounded weighted load as the spec states it: the sum of the role
weights of the given assignments. -/
def weightSum (l : List Assignment) : ℚ :=
  (l.map (fun p => roleWeight p.role)).sum

/-- The same sum in tenths. -/
def tenthsSum (l : List Assignment) : Nat :=
  (l.map (fun p => roleWeightT p.role)).sum

lemma roleWeight_eq_tenths (role : String) :
    roleWeight role = (roleWeightT role : ℚ) / 10 := by
  unfold roleWeight roleWeightT
  split_ifs <;> norm_num

lemma weightSum_eq_tenths (l : List Assignment) :
    weightSum l = (tenthsSum l : ℚ) / 10 := by
  induction l with
  | nil => simp [weightSum, tenthsSum]
  | cons p l ih =>
    simp only [weightSum, tenthsSum, List.map_cons, List.sum_cons] at ih ⊢
    rw [roleWeight_eq_tenths, ih]
    push_cast
    ring

lemma foldl_add_weight (l : List Assignment) (a : ℚ) :
    l.foldl (fun acc p => acc + roleWeight p.role) a = a + weightSum l := by
  induction l generalizing a with
  | nil => simp [weightSum]
  | cons p l ih =>
    simp only [List.foldl_cons, weightSum, List.map_cons, List.sum_cons] at ih ⊢
    rw [ih]
    ring

lemma rawLoad_eq_weightSum (l : List Assignment) : rawLoad l = weightSum l := by
  simpa using foldl_add_weight l 0

lemma round1_natDiv10 (n : Nat) : round1 ((n : ℚ) / 10) = (n : ℚ) / 10 := by
  unfold round1
  rw [div_mul_cancel₀ _ (by norm_num : (10:ℚ) ≠ 0), round_natCast]
  push_cast
  ring

/-- Since every weight is a multiple of 1/10, rounding a weighted load to one
decimal place is the identity. -/
lemma round1_rawLoad (l : List Assignment) : round1 (rawLoad l) = rawLoad l := by
  rw [rawLoad_eq_weightSum, weightSum_eq_tenths, round1_natDiv10]

lemma rawLoad_nonneg (l : List Assignment) : 0 ≤ rawLoad l := by
  rw [rawLoad_eq_weightSum, weightSum_eq_tenths]
  positivity

/-! ### Membership decompositions -/

lemma mem_processData {today : SDate} {rows : List Row} {c : Consultant} :
    c ∈ processData today rows ↔
      ∃ pr ∈ projectsByConsultant rows, mkConsultant today pr.1 pr.2 = c := by
  unfold processData consultantsUnsorted
  rw [List.mem_insertionSort, List.mem_map]

lemma mem_timeline {today : SDate} {projects : List Assignment} {e : MonthlySnapshot} :
    e ∈ generateMonthlyTimeline today projects ↔
      ∃ m ∈ monthsList today, snapshotFor projects m = e := by
  unfold generateMonthlyTimeline
  rw [List.mem_map]

lemma snapshotFor_month (projects : List Assignment) (m : SDate) :
    (snapshotFor projects m).month = m := rfl

lemma snapshotFor_weightedLoad (projects : List Assignment) (m : SDate) :
    (snapshotFor projects m).weightedLoad =
      round1 (rawLoad (projects.filter (fun p => isActive m p))) := rfl

lemma snapshotFor_capacity (projects : List Assignment) (m : SDate) :
    (snapshotFor projects m).capacity =
      max 0 (MAX_RECOMMENDED_LOAD - rawLoad (projects.filter (fun p => isActive m p))) := rfl

/-! ### C1 -/

/-- C1: for every consultant produced by the workload deriver and every month
of its timeline, the stored weighted load equals the sum of the role weights
(Lead = 1, Co-Lead = 0.7, Strategic Advisor = 0.3, Supporting = 0.2, others 0)
of the consultant's assignments active that month, rounded to one decimal
place, and it is always nonnegative. -/
theorem weightedLoad_eq_rounded_active_sum (today : SDate) (rows : List Row)
    (c : Consultant) (hc : c ∈ processData today rows) :
    ∃ asgs, (c.name, asgs) ∈ projectsByConsultant rows ∧
      ∀ e ∈ c.timeline,
        e.weightedLoad = round1 (weightSum (asgs.filter (fun p => isActive e.month p))) ∧
        0 ≤ e.weightedLoad := by
  obtain ⟨pr, hpr, hce⟩ := mem_processData.1 hc
  subst hce
  refine ⟨pr.2, hpr, ?_⟩
  intro e he
  obtain ⟨m, _, hsnap⟩ := mem_timeline.1 he
  subst hsnap
  constructor
  · rw [snapshotFor_weightedLoad, snapshotFor_month, rawLoad_eq_weightSum]
  · rw [snapshotFor_weightedLoad, round1_rawLoad]
    exact rawLoad_nonneg _

/-- Reference date used by the concrete witnesses: 2025-10-15. -/
def wToday : SDate := ⟨2025, 9, 15⟩

/-- A concrete parsed dataset: one row whose lead field lists two names, whose
strategic-advisor field contains only blank names, and whose supporting field
repeats one of the leads. -/
def wRows : List Row :=
  [⟨some "P1", some "Ann;Bob", none, some " ; ", some "Ann",
    some ⟨2025, 8, 1⟩, some ⟨2026, 1, 28⟩, some "Tech"⟩]

/-- The first derived consultant of the witness dataset. -/
def wConsultant : Consultant := (processData wToday wRows).headI

/-- Witness for C1 at a concrete dataset. -/
theorem weightedLoad_eq_rounded_active_sum_witness :
    wConsultant ∈ processData wToday wRows ∧
      ∃ asgs, (wConsultant.name, asgs) ∈ projectsByConsultant wRows ∧
        ∀ e ∈ wConsultant.timeline,
          e.weightedLoad = round1 (weightSum (asgs.filter (fun p => isActive e.month p))) ∧
          0 ≤ e.weightedLoad :=
  ⟨by decide, weightedLoad_eq_rounded_active_sum wToday wRows wConsultant (by decide)⟩

/-! ### C2 -/

/-- The calendar successor of a first-of-month date. -/
def nextMonth (d : SDate) : SDate :=
  if d.month = 11 then ⟨d.year + 1, 0, 1⟩ else ⟨d.year, d.month + 1, 1⟩

lemma nextMonth_mkMonth (y m : Int) :
    nextMonth (mkMonth y m) = mkMonth y (m + 1) := by
  simp only [nextMonth, mkMonth]
  split_ifs with h <;> simp only [SDate.mk.injEq, and_true] <;>
    exact ⟨by omega, by omega⟩

lemma timeline_month_map (t : SDate) (ps : List Assignment) :
    (generateMonthlyTimeline t ps).map MonthlySnapshot.month = monthsList t := by
  unfold generateMonthlyTimeline
  rw [List.map_map]
  have h : MonthlySnapshot.month ∘ snapshotFor ps = id := rfl
  rw [h, List.map_id]

lemma range12 : List.range 12 = [0, 1, 2, 3, 4, 5, 6, 7, 8, 9, 10, 11] := rfl

lemma mkMonth_congr (y : Int) {a b : Int} (h : a = b) :
    mkMonth y a = mkMonth y b := by rw [h]

/-- C2: every consultant produced by the workload deriver has a timeline of
exactly 12 monthly entries, in consecutive calendar-month order, starting at
the first of the current (reference) month. -/
theorem timeline_twelve_consecutive_months (today : SDate) (rows : List Row)
    (c : Consultant) (h0 : 0 ≤ today.month) (h1 : today.month < 12)
    (hc : c ∈ processData today rows) :
    c.timeline.length = 12 ∧
      (c.timeline.map MonthlySnapshot.month).head? = some ⟨today.year, today.month, 1⟩ ∧
      List.Chain' (fun a b => b = nextMonth a) (c.timeline.map MonthlySnapshot.month) := by
  obtain ⟨pr, hpr, hce⟩ := mem_processData.1 hc
  subst hce
  have hmap := timeline_month_map today pr.2
  simp only [mkConsultant]
  refine ⟨?_, ?_, ?_⟩
  · have hlen := congrArg List.length hmap
    rw [List.length_map] at hlen
    rw [hlen]
    simp [monthsList, range12]
  · rw [hmap]
    simp only [monthsList, range12, List.map_cons, List.head?_cons, Option.some.injEq]
    simp only [mkMonth, SDate.mk.injEq, and_true]
    exact ⟨by omega, by omega⟩
  · rw [hmap]
    simp only [monthsList, range12, List.map_cons, List.map_nil]
    simp only [List.chain'_cons, List.chain'_singleton, and_true]
    refine ⟨?_, ?_, ?_, ?_, ?_, ?_, ?_, ?_, ?_, ?_, ?_⟩ <;>
      (rw [nextMonth_mkMonth]; exact mkMonth_congr _ (by push_cast; ring))

/-- Witness for C2 at a concrete dataset. -/
theorem timeline_twelve_consecutive_months_witness :
    wConsultant ∈ processData wToday wRows ∧
      (wConsultant.timeline.length = 12 ∧
        (wConsultant.timeline.map MonthlySnapshot.month).head? =
          some ⟨wToday.year, wToday.month, 1⟩ ∧
        List.Chain' (fun a b => b = nextMonth a)
          (wConsultant.timeline.map MonthlySnapshot.month)) :=
  ⟨by decide,
    timeline_twelve_consecutive_months wToday wRows wConsultant
      (by decide) (by decide) (by decide)⟩

/-! ### C3 -/

/-- C3: for every consultant produced by the workload deriver and every month
of its timeline, the stored capacity equals `max 0 (8 - weightedLoad)` where
`weightedLoad` is that month's stored weighted-load field, and the capacity
is never negative.  (The source computes the capacity from the un-rounded
sum; the two agree because every load is an exact multiple of one tenth.) -/
theorem capacity_eq_max_zero_sub (today : SDate) (rows : List Row)
    (c : Consultant) (hc : c ∈ processData today rows) :
    ∀ e ∈ c.timeline,
      e.capacity = max 0 (8 - e.weightedLoad) ∧ 0 ≤ e.capacity := by
  obtain ⟨pr, hpr, hce⟩ := mem_processData.1 hc
  subst hce
  intro e he
  obtain ⟨m, _, hsnap⟩ := mem_timeline.1 he
  subst hsnap
  constructor
  · rw [snapshotFor_capacity, snapshotFor_weightedLoad, round1_rawLoad]
    rfl
  · rw [snapshotFor_capacity]
    exact le_max_left 0 _

/-- Witness for C3 at a concrete dataset. -/
theorem capacity_eq_max_zero_sub_witness :
    wConsultant ∈ processData wToday wRows ∧
      ∀ e ∈ wConsultant.timeline,
        e.capacity = max 0 (8 - e.weightedLoad) ∧ 0 ≤ e.capacity :=
  ⟨by decide, capacity_eq_max_zero_sub wToday wRows wConsultant (by decide)⟩

/-! ### C4 -/

/-- C4 counterexample: in the witness dataset the name `Ann` appears both in
the lead field and in the supporting field of the same deal, so her grouped
list holds two assignments with the same project name while the
de-duplicated `projects` field keeps only the first; `currentLoad` is
computed from the grouped list and equals 2, not the count 1 of her
de-duplicated assignments active today.  So the claim, read over the
consultant's de-duplicated assignments, is false. -/
theorem currentLoad_ne_dedup_active_count :
    ¬ (∀ c ∈ processData wToday wRows,
        c.currentLoad =
          (c.projects.filter (fun p => isActiveToday wToday p)).length) := by
  decide

/-- C4 (amended): the derived current load equals the count of the
consultant's grouped assignments — as accumulated from the source rows,
before de-duplication by project name — whose date range contains the
reference date. -/
theorem currentLoad_eq_grouped_active_count (today : SDate) (rows : List Row)
    (c : Consultant) (hc : c ∈ processData today rows) :
    ∃ asgs, (c.name, asgs) ∈ projectsByConsultant rows ∧
      c.currentLoad = (asgs.filter (fun p => isActiveToday today p)).length := by
  obtain ⟨pr, hpr, hce⟩ := mem_processData.1 hc
  subst hce
  exact ⟨pr.2, hpr, rfl⟩

/-- Witness for the amended C4 at a concrete dataset. -/
theorem currentLoad_eq_grouped_active_count_witness :
    wConsultant ∈ processData wToday wRows ∧
      ∃ asgs, (wConsultant.name, asgs) ∈ projectsByConsultant wRows ∧
        wConsultant.currentLoad =
          (asgs.filter (fun p => isActiveToday wToday p)).length :=
  ⟨by decide, currentLoad_eq_grouped_active_count wToday wRows wConsultant (by decide)⟩

/-! ### C5 -/

lemma filter_orderedInsert_of_ne (v : Nat) (a : Consultant) (l : List Consultant)
    (ha : ¬ a.currentLoad = v) :
    (List.orderedInsert byDescLoad a l).filter (fun c => c.currentLoad = v) =
      l.filter (fun c => c.currentLoad = v) := by
  induction l with
  | nil => simp [ha]
  | cons b l ih =>
    rw [List.orderedInsert]
    split_ifs with h
    · simp [List.filter_cons, ha]
    · rw [List.filter_cons, List.filter_cons, ih]

lemma filter_orderedInsert_of_eq (v : Nat) (a : Consultant) (l : List Consultant)
    (ha : a.currentLoad = v) :
    (List.orderedInsert byDescLoad a l).filter (fun c => c.currentLoad = v) =
      a :: l.filter (fun c => c.currentLoad = v) := by
  induction l with
  | nil => simp [ha]
  | cons b l ih =>
    rw [List.orderedInsert]
    split_ifs with h
    · simp [List.filter_cons, ha]
    · have hb : ¬ b.currentLoad = v := by
        simp only [byDescLoad] at h
        omega
      simp [List.filter_cons, hb, ih]

/-- Filtering on any given current load commutes with the stable insertion
sort: the sublist of consultants of that load is unchanged, which is
exactly stability for the descending-load comparator. -/
lemma filter_insertionSort_eq (v : Nat) (l : List Consultant) :
    (List.insertionSort byDescLoad l).filter (fun c => c.currentLoad = v) =
      l.filter (fun c => c.currentLoad = v) := by
  induction l with
  | nil => rfl
  | cons a l ih =>
    rw [List.insertionSort]
    by_cases ha : a.currentLoad = v
    · rw [filter_orderedInsert_of_eq v a _ ha, ih, List.filter_cons]
      simp [ha]
    · rw [filter_orderedInsert_of_ne v a _ ha, ih, List.filter_cons]
      simp [ha]

/-- C5: the consultant list produced by the workload deriver is sorted in
descending order of current load, and for every load value the consultants
carrying it appear in the same order as in the pre-sort list (which lists
consultants in first-seen-in-source order), i.e. ties keep insertion
order. -/
theorem consultants_sorted_desc_stable (today : SDate) (rows : List Row) :
    List.Sorted byDescLoad (processData today rows) ∧
      ∀ v : Nat,
        (processData today rows).filter (fun c => c.currentLoad = v) =
          (consultantsUnsorted today rows).filter (fun c => c.currentLoad = v) := by
  constructor
  · exact List.sorted_insertionSort byDescLoad (consultantsUnsorted today rows)
  · intro v
    exact filter_insertionSort_eq v (consultantsUnsorted today rows)

/-- Witness for C5 at a concrete dataset. -/
theorem consultants_sorted_desc_stable_witness :
    List.Sorted byDescLoad (processData wToday wRows) ∧
      ∀ v : Nat,
        (processData wToday wRows).filter (fun c => c.currentLoad = v) =
          (consultantsUnsorted wToday wRows).filter (fun c => c.currentLoad = v) :=
  consultants_sorted_desc_stable wToday wRows

/-! ### C6 -/

/-- C6: with only the capacity-status criterion active, the filter removes
whole consultants — the retained records are unchanged members of the base
list — based on the first timeline entry's weighted load: `available` keeps
exactly the loads `< 6.4` (`= 0.8 × 8`), `at-capacity` exactly
`6.4 ≤ load ≤ 8`, and `over-capacity` exactly the loads `> 8`, so a load of
exactly 8 is excluded from `over-capacity`. -/
theorem capacity_status_filter_exact (today : SDate) (data : List Consultant) :
    applyFilters today ⟨"all", "all", "available", ""⟩ data =
        data.filter (fun c => firstWeightedLoad c < 64/10) ∧
      applyFilters today ⟨"all", "all", "at-capacity", ""⟩ data =
        data.filter (fun c => 64/10 ≤ firstWeightedLoad c ∧ firstWeightedLoad c ≤ 8) ∧
      applyFilters today ⟨"all", "all", "over-capacity", ""⟩ data =
        data.filter (fun c => 8 < firstWeightedLoad c) := by
  refine ⟨?_, ?_, ?_⟩ <;>
      simp [applyFilters, capacityPred, MAX_RECOMMENDED_LOAD] <;>
    norm_num

/-! ### C7 -/

/-- C7: applying the filter engine with the business-line criterion `"all"`
and every other criterion disabled yields a view equal to the base dataset.
(In this pure embedding a filter application constructs a fresh list and can
never mutate the base dataset, for any combination of criteria.) -/
theorem filters_all_disabled_identity (today : SDate) (data : List Consultant) :
    applyFilters today ⟨"all", "all", "all", ""⟩ data = data := rfl

/-- Witness for C7 at a concrete dataset. -/
theorem filters_all_disabled_identity_witness :
    applyFilters wToday ⟨"all", "all", "all", ""⟩ (processData wToday wRows) =
      processData wToday wRows :=
  filters_all_disabled_identity wToday (processData wToday wRows)

/-! ### C8 -/

lemma isActive_false_of_invalid (p : Assignment)
    (hp : p.startDate = none ∨ p.endDate = none) (m : SDate) :
    isActive m p = false := by
  rcases hp with h | h
  · unfold isActive
    rw [h]
  · unfold isActive
    rw [h]
    cases p.startDate <;> rfl

lemma filter_isActive_append_invalid (m : SDate) (l1 l2 : List Assignment)
    (p : Assignment) (hp : p.startDate = none ∨ p.endDate = none) :
    (l1 ++ p :: l2).filter (fun q => isActive m q) =
      (l1 ++ l2).filter (fun q => isActive m q) := by
  rw [List.filter_append, List.filter_append, List.filter_cons,
    isActive_false_of_invalid p hp m]
  simp

/-- C8: an assignment whose start or end date does not parse to a valid date
is active in no month: it is excluded from every month's active set, and
removing it from the input leaves the whole timeline (project counts,
weighted loads, capacities and details) unchanged.  No error is raised — the
embedding is total, mirroring the silent exclusion in the source. -/
theorem invalid_dates_excluded_everywhere (today : SDate)
    (l1 l2 : List Assignment) (p : Assignment)
    (hp : p.startDate = none ∨ p.endDate = none) :
    (∀ m : SDate, isActive m p = false) ∧
      generateMonthlyTimeline today (l1 ++ p :: l2) =
        generateMonthlyTimeline today (l1 ++ l2) := by
  refine ⟨fun m => isActive_false_of_invalid p hp m, ?_⟩
  unfold generateMonthlyTimeline
  apply List.map_congr_left
  intro m _
  simp only [snapshotFor]
  rw [filter_isActive_append_invalid m l1 l2 p hp]

/-- An assignment whose start date cell does not parse. -/
def wBadAssign : Assignment := ⟨some "X", "Lead", none, some ⟨2025, 0, 1⟩, none⟩

/-- A normal assignment with valid dates. -/
def wGoodAssign : Assignment :=
  ⟨some "P1", "Lead", some ⟨2025, 8, 1⟩, some ⟨2026, 1, 28⟩, some "Tech"⟩

/-- Witness for C8 at a concrete assignment list. -/
theorem invalid_dates_excluded_everywhere_witness :
    (wBadAssign.startDate = none ∨ wBadAssign.endDate = none) ∧
      ((∀ m : SDate, isActive m wBadAssign = false) ∧
        generateMonthlyTimeline wToday ([wGoodAssign] ++ wBadAssign :: []) =
          generateMonthlyTimeline wToday ([wGoodAssign] ++ [])) :=
  ⟨Or.inl rfl,
    invalid_dates_excluded_everywhere wToday [wGoodAssign] [] wBadAssign (Or.inl rfl)⟩

/-! ### C9 -/

/-- Witness rows in which one consultant, `Cara`, leads two distinct deals,
both active at the reference date. -/
def wRowsTwo : List Row :=
  [⟨some "P1", some "Cara", none, none, none,
    some ⟨2025, 8, 1⟩, some ⟨2026, 1, 28⟩, some "Tech"⟩,
   ⟨some "P2", some "Cara", none, none, none,
    some ⟨2025, 7, 1⟩, some ⟨2026, 3, 28⟩, some "Ops"⟩]

lemma length_exportCsvRows (data : List Consultant) :
    (exportCsvRows data).length = (data.map (fun c => c.projects.length)).sum := by
  induction data with
  | nil => rfl
  | cons c data ih =>
    simp only [exportCsvRows, List.flatMap_cons, List.length_append,
      List.length_map, List.map_cons, List.sum_cons] at ih ⊢
    omega

/-- C9: the CSV export emits exactly one row per (consultant, de-duplicated
assignment) pair, each carrying the consultant's current-month (first
timeline entry) weighted load and an available capacity equal to `8 - load`,
unclamped; in particular a consultant with two assignments yields exactly
two rows repeating the same load and capacity. -/
theorem csv_one_row_per_pair (data : List Consultant) :
    exportCsvRows data =
        data.flatMap (fun c => c.projects.map (fun p =>
          { consultant := c.name
            project := p.projectName
            role := p.role
            businessLine := p.businessLine
            startDate := p.startDate
            endDate := p.endDate
            currentLoad := firstWeightedLoad c
            availableCapacity := 8 - firstWeightedLoad c })) ∧
      (exportCsvRows data).length = (data.map (fun c => c.projects.length)).sum ∧
      (∀ r ∈ exportCsvRows data, r.availableCapacity = 8 - r.currentLoad) ∧
      (exportCsvRows (processData wToday wRowsTwo)).map
          (fun r => (r.consultant, r.currentLoad, r.availableCapacity)) =
        [("Cara", 2, 6), ("Cara", 2, 6)] := by
  refine ⟨rfl, length_exportCsvRows data, ?_, by decide⟩
  intro r hr
  rw [exportCsvRows, List.mem_flatMap] at hr
  obtain ⟨c, _, hr⟩ := hr
  rw [List.mem_map] at hr
  obtain ⟨p, _, hpr⟩ := hr
  rw [← hpr]
  rfl

/-! ### C10 -/

lemma splitConsultants_nonempty_trimmed {s n : String}
    (hn : n ∈ splitConsultants (some s)) :
    n ≠ "" ∧ ∃ g ∈ splitSemis s.data, n = String.mk (trimChars g) := by
  simp only [splitConsultants] at hn
  split_ifs at hn with h
  · simp at hn
  · rw [List.mem_filter] at hn
    obtain ⟨hmem, hne⟩ := hn
    rw [List.mem_map] at hmem
    obtain ⟨g, hg, hgn⟩ := hmem
    exact ⟨by simpa using hne, g, hg, hgn.symm⟩

lemma splitConsultants_ne_empty {o : Option String} {n : String}
    (hn : n ∈ splitConsultants o) : n ≠ "" := by
  cases o with
  | none => simp [splitConsultants] at hn
  | some s => exact (splitConsultants_nonempty_trimmed hn).1

lemma foldl_preserve {α β : Type} (P : β → Prop) (f : β → α → β) :
    ∀ (l : List α) (b : β), P b → (∀ b a, P b → a ∈ l → P (f b a)) →
      P (l.foldl f b)
  | [], _, hb, _ => hb
  | a :: l, b, hb, hstep =>
    foldl_preserve P f l (f b a) (hstep b a hb (List.mem_cons_self a l))
      (fun b' a' hb' ha' => hstep b' a' hb' (List.mem_cons_of_mem a ha'))

lemma mem_pushAssign_key {acc : List (String × List Assignment)} {name : String}
    {a : Assignment} {pr : String × List Assignment}
    (hpr : pr ∈ pushAssign acc name a) :
    pr.1 = name ∨ ∃ q ∈ acc, pr.1 = q.1 := by
  unfold pushAssign at hpr
  split_ifs at hpr with h
  · rw [List.mem_map] at hpr
    obtain ⟨q, hq, hqe⟩ := hpr
    by_cases hq1 : q.1 = name
    · left
      rw [← hqe]
      simp [hq1]
    · right
      refine ⟨q, hq, ?_⟩
      rw [← hqe]
      simp [hq1]
  · rw [List.mem_append] at hpr
    rcases hpr with hm | hm
    · exact Or.inr ⟨pr, hm, rfl⟩
    · left
      rw [List.mem_singleton] at hm
      rw [hm]

lemma processRow_keys {acc : List (String × List Assignment)} {r : Row}
    (hacc : ∀ pr ∈ acc, pr.1 ≠ "") :
    ∀ pr ∈ processRow acc r, pr.1 ≠ "" := by
  unfold processRow
  refine foldl_preserve
    (fun (acc2 : List (String × List Assignment)) => ∀ pr ∈ acc2, pr.1 ≠ "")
    _ _ _ hacc ?_
  intro acc2 field hacc2 _
  refine foldl_preserve
    (fun (acc3 : List (String × List Assignment)) => ∀ pr ∈ acc3, pr.1 ≠ "")
    _ _ _ hacc2 ?_
  intro acc3 n hacc3 hn pr hpr
  rcases mem_pushAssign_key hpr with h | ⟨q, hq, hq1⟩
  · rw [h]
    exact splitConsultants_ne_empty hn
  · rw [hq1]
    exact hacc3 q hq

lemma projectsByConsultant_keys (rows : List Row) :
    ∀ pr ∈ projectsByConsultant rows, pr.1 ≠ "" := by
  unfold projectsByConsultant
  exact foldl_preserve
    (fun (acc : List (String × List Assignment)) => ∀ pr ∈ acc, pr.1 ≠ "")
    _ _ _ (by simp) (fun acc r hacc _ => processRow_keys hacc)

/-- C10: splitting a role name field trims each semicolon-delimited name and
discards names that are empty after trimming; a missing (`none`) or empty
role field yields no names at all; consequently no consultant with an empty
name is ever created by the grouping. -/
theorem split_names_trimmed_nonempty :
    splitConsultants none = [] ∧ splitConsultants (some "") = [] ∧
      (∀ s n : String, n ∈ splitConsultants (some s) →
        n ≠ "" ∧ ∃ g ∈ splitSemis s.data, n = String.mk (trimChars g)) ∧
      (∀ (rows : List Row) (pr : String × List Assignment),
        pr ∈ projectsByConsultant rows → pr.1 ≠ "") :=
  ⟨rfl, rfl, fun _ _ hn => splitConsultants_nonempty_trimmed hn,
    fun rows pr hpr => projectsByConsultant_keys rows pr hpr⟩

/-! ### Additional concrete witnesses -/

/-- Witness for C6 at a concrete dataset. -/
theorem capacity_status_filter_exact_witness :
    applyFilters wToday ⟨"all", "all", "available", ""⟩ (processData wToday wRows) =
        (processData wToday wRows).filter (fun c => firstWeightedLoad c < 64/10) ∧
      applyFilters wToday ⟨"all", "all", "at-capacity", ""⟩ (processData wToday wRows) =
        (processData wToday wRows).filter
          (fun c => 64/10 ≤ firstWeightedLoad c ∧ firstWeightedLoad c ≤ 8) ∧
      applyFilters wToday ⟨"all", "all", "over-capacity", ""⟩ (processData wToday wRows) =
        (processData wToday wRows).filter (fun c => 8 < firstWeightedLoad c) :=
  capacity_status_filter_exact wToday (processData wToday wRows)

/-- Witness for C9 at a concrete dataset. -/
theorem csv_one_row_per_pair_witness :
    exportCsvRows (processData wToday wRowsTwo) =
        (processData wToday wRowsTwo).flatMap (fun c => c.projects.map (fun p =>
          { consultant := c.name
            project := p.projectName
            role := p.role
            businessLine := p.businessLine
            startDate := p.startDate
            endDate := p.endDate
            currentLoad := firstWeightedLoad c
            availableCapacity := 8 - firstWeightedLoad c })) ∧
      (exportCsvRows (processData wToday wRowsTwo)).length =
        ((processData wToday wRowsTwo).map (fun c => c.projects.length)).sum ∧
      (∀ r ∈ exportCsvRows (processData wToday wRowsTwo),
        r.availableCapacity = 8 - r.currentLoad) ∧
      (exportCsvRows (processData wToday wRowsTwo)).map
          (fun r => (r.consultant, r.currentLoad, r.availableCapacity)) =
        [("Cara", 2, 6), ("Cara", 2, 6)] :=
  csv_one_row_per_pair (processData wToday wRowsTwo)

/-- Witness for C10 at a concrete role field. -/
theorem split_names_trimmed_nonempty_witness :
    "A" ∈ splitConsultants (some " A ; ") ∧
      ("A" ≠ "" ∧ ∃ g ∈ splitSemis " A ; ".data, "A" = String.mk (trimChars g)) :=
  ⟨by decide, split_names_trimmed_nonempty.2.2.1 " A ; " "A" (by decide)⟩
